import Mathlib

/-!
Verification of the XML-cadastral extraction pipeline (`extract_xml_to_db.py`).

The development shallowly embeds the parser (`XMLParser`), the loader
(`DatabaseInserter`) and the per-file worker of the repository, and proves
the frozen claims about them.  XML documents are modelled as finite rose
trees (`XElem`); the relational store is modelled as per-table lists of
rows keyed by their primary-key column; a transaction is a pair of a
committed and a pending database snapshot.
-/

namespace ExportData

/-- An XML element: tag, optional text, children (in document order).
Mirrors the view of `xml.etree.ElementTree` used by the source. -/
inductive XElem where
  | mk (tag : String) (text : Option String) (children : List XElem)
deriving Repr

def XElem.tag : XElem → String
  | .mk t _ _ => t

def XElem.text : XElem → Option String
  | .mk _ tx _ => tx

def XElem.children : XElem → List XElem
  | .mk _ _ cs => cs

/-- Python truthiness of an `Element`: an element is truthy iff it has
children (`if collection:` guards in the source). -/
def XElem.truthy (e : XElem) : Bool :=
  !e.children.isEmpty

/-- `element.find(tag)`: first direct child with the given tag. -/
def XElem.findChild (e : XElem) (t : String) : Option XElem :=
  e.children.find? (fun c => c.tag == t)

/-- `element.findall(tag)`: all direct children with the given tag. -/
def XElem.childrenTagged (e : XElem) (t : String) : List XElem :=
  e.children.filter (fun c => c.tag == t)

mutual

/-- All proper descendants of an element, in document (preorder) order. -/
def XElem.descendants : XElem → List XElem
  | .mk _ _ cs => XElem.descList cs

/-- Preorder listing of a forest: each root followed by its descendants. -/
def XElem.descList : List XElem → List XElem
  | [] => []
  | c :: rest => c :: (XElem.descendants c ++ XElem.descList rest)

end

/-- `root.findall('.//T')`: all descendants tagged `T`, document order. -/
def XElem.findallDesc (e : XElem) (t : String) : List XElem :=
  e.descendants.filter (fun c => c.tag == t)

/-- `root.find('.//T')`: first descendant tagged `T` in document order. -/
def XElem.findDesc (e : XElem) (t : String) : Option XElem :=
  (e.findallDesc t).head?

/-- The whitespace characters stripped by Python `str.strip()` (ASCII part). -/
def isSpaceChar (c : Char) : Bool :=
  c == ' ' || c == '\t' || c == '\n' || c == '\r' || c == '\x0b' || c == '\x0c'

/-- Python `str.strip()`. -/
def trimStr (s : String) : String :=
  String.mk (((s.data.dropWhile isSpaceChar).reverse.dropWhile isSpaceChar).reverse)

def lowerChar (c : Char) : Char :=
  if 'A' ≤ c && c ≤ 'Z' then Char.ofNat (c.toNat + 32) else c

/-- Python `str.lower()` (ASCII part, which is all the source compares). -/
def lowerStr (s : String) : String :=
  String.mk (s.data.map lowerChar)

/-- `XMLParser._get_text(element, tag, default)`: the child's text, stripped,
when the child exists and its text is truthy (non-empty); the default
otherwise.  Note: whitespace-only text is truthy, so the result can be the
empty string after stripping. -/
def getText (e : Option XElem) (t : String) (dflt : Option String) : Option String :=
  match e with
  | none => dflt
  | some el =>
    match el.findChild t with
    | none => dflt
    | some c =>
      match c.text with
      | none => dflt
      | some s => if s = "" then dflt else some (trimStr s)

/-- Python truthiness of an optional string. -/
def strTruthy (s : Option String) : Bool :=
  match s with
  | some v => v ≠ ""
  | none => false

/-- `XMLParser._parse_boolean`. -/
def parse_boolean (s : Option String) : Option Bool :=
  match s with
  | none => none
  | some str =>
    if str = "" then none
    else some ((["true", "1", "yes"] : List String).contains (lowerStr (trimStr str)))

/-! ### Date parsing (`datetime.strptime` model for the formats used) -/

def isLeap (y : Nat) : Bool :=
  (y % 4 == 0 && y % 100 != 0) || (y % 400 == 0)

def daysInMonth (y m : Nat) : Nat :=
  if m == 2 then (if isLeap y then 29 else 28)
  else if m == 4 || m == 6 || m == 9 || m == 11 then 30
  else 31

def validDate (y m d : Nat) : Bool :=
  1 ≤ y && y ≤ 9999 && 1 ≤ m && m ≤ 12 && 1 ≤ d && d ≤ daysInMonth y m

def digitVal (c : Char) : Nat := c.toNat - 48

/-- Exactly `n` digits (as `%Y` requires exactly four). -/
def pDigitsExact (n : Nat) (cs : List Char) : Option (Nat × List Char) :=
  let pre := cs.take n
  if pre.length == n && pre.all Char.isDigit then
    some (pre.foldl (fun a c => a * 10 + digitVal c) 0, cs.drop n)
  else none

/-- One or two digits (as `%m`, `%d`, `%H`, `%M`, `%S` allow). -/
def pDigits12 (cs : List Char) : Option (Nat × List Char) :=
  match cs with
  | [] => none
  | [c] => if c.isDigit then some (digitVal c, []) else none
  | c1 :: c2 :: rest =>
    if c1.isDigit then
      if c2.isDigit then some (digitVal c1 * 10 + digitVal c2, rest)
      else some (digitVal c1, c2 :: rest)
    else none

def pChar (ch : Char) (cs : List Char) : Option (List Char) :=
  match cs with
  | [] => none
  | c :: rest => if c == ch then some rest else none

/-- `strptime(s, "%Y-%m-%d")` on a prefix; returns the rest of the input. -/
def strptimeYmdCore (cs : List Char) : Option ((Nat × Nat × Nat) × List Char) :=
  match pDigitsExact 4 cs with
  | none => none
  | some (y, cs1) =>
    match pChar '-' cs1 with
    | none => none
    | some cs2 =>
      match pDigits12 cs2 with
      | none => none
      | some (m, cs3) =>
        match pChar '-' cs3 with
        | none => none
        | some cs4 =>
          match pDigits12 cs4 with
          | none => none
          | some (d, cs5) =>
            if validDate y m d then some ((y, m, d), cs5) else none

/-- `strptime(s, "%Y-%m-%d")`: the whole string must be consumed. -/
def strptimeYmd (s : String) : Option (Nat × Nat × Nat) :=
  match strptimeYmdCore s.data with
  | some (ymd, []) => some ymd
  | _ => none

/-- `strptime(s, "%Y-%m-%d %H:%M:%S")`. -/
def strptimeYmdHms (s : String) : Option (Nat × Nat × Nat × Nat × Nat × Nat) :=
  match strptimeYmdCore s.data with
  | none => none
  | some ((y, m, d), cs) =>
    match pChar ' ' cs with
    | none => none
    | some cs1 =>
      match pDigits12 cs1 with
      | none => none
      | some (h, cs2) =>
        match pChar ':' cs2 with
        | none => none
        | some cs3 =>
          match pDigits12 cs3 with
          | none => none
          | some (mi, cs4) =>
            match pChar ':' cs4 with
            | none => none
            | some cs5 =>
              match pDigits12 cs5 with
              | some (sec, []) =>
                if h ≤ 23 && mi ≤ 59 && sec ≤ 59 then
                  some (y, m, d, h, mi, sec)
                else none
              | _ => none

/-- `strptime(s, "%d/%m/%Y")`. -/
def strptimeDmy (s : String) : Option (Nat × Nat × Nat) :=
  match pDigits12 s.data with
  | none => none
  | some (d, cs1) =>
    match pChar '/' cs1 with
    | none => none
    | some cs2 =>
      match pDigits12 cs2 with
      | none => none
      | some (m, cs3) =>
        match pChar '/' cs3 with
        | none => none
        | some cs4 =>
          match pDigitsExact 4 cs4 with
          | some (y, []) => if validDate y m d then some (y, m, d) else none
          | _ => none

def padNum (w : Nat) (n : Nat) : String :=
  let s := toString n
  String.mk (List.replicate (w - s.length) '0') ++ s

/-- `strftime("%Y-%m-%d")`. -/
def fmtDate (y m d : Nat) : String :=
  padNum 4 y ++ "-" ++ padNum 2 m ++ "-" ++ padNum 2 d

/-- `strftime("%Y-%m-%d %H:%M:%S")`. -/
def fmtDateTime (y m d h mi s : Nat) : String :=
  fmtDate y m d ++ " " ++ padNum 2 h ++ ":" ++ padNum 2 mi ++ ":" ++ padNum 2 s

/-- `XMLParser._parse_date`: tries `%Y-%m-%d`, then `%Y-%m-%d %H:%M:%S`,
then `%d/%m/%Y`, first success wins; output formatted `%Y-%m-%d`. -/
def parse_date (s? : Option String) : Option String :=
  match s? with
  | none => none
  | some s =>
    if s = "" then none
    else
      let t := trimStr s
      match strptimeYmd t with
      | some (y, m, d) => some (fmtDate y m d)
      | none =>
        match strptimeYmdHms t with
        | some (y, m, d, _, _, _) => some (fmtDate y m d)
        | none =>
          match strptimeDmy t with
          | some (y, m, d) => some (fmtDate y m d)
          | none => none

/-- `XMLParser._parse_timestamp`: tries `%Y-%m-%d %H:%M:%S` then `%Y-%m-%d`;
output formatted `%Y-%m-%d %H:%M:%S`. -/
def parse_timestamp (s? : Option String) : Option String :=
  match s? with
  | none => none
  | some s =>
    if s = "" then none
    else
      let t := trimStr s
      match strptimeYmdHms t with
      | some (y, m, d, h, mi, sec) => some (fmtDateTime y m d h mi sec)
      | none =>
        match strptimeYmd t with
        | some (y, m, d) => some (fmtDateTime y m d 0 0 0)
        | none => none

/-! ### Extracted record types (one per target table) -/

/-- One entry of the owner-pair (`VoChong`) map. -/
structure VoChongInfo where
  voChongID : Option String
  voID : Option String
  chongID : Option String
deriving Repr, DecidableEq

def emptyVoChong : VoChongInfo := { voChongID := none, voID := none, chongID := none }

/-- A `thuadat` (Parcel) row as built by `extract_thuadat_data`. -/
structure ThuaDatRow where
  thuaDatID : String
  maDVHCXa : Option String
  soHieuToBanDo : Option String
  soThuTuThua : Option String
  dienTich : Option String
  dienTichPhapLy : Option String
  diaChiID : Option String
  voChongID : Option String
  voID : Option String
  chongID : Option String
  phanLoaiDuLieu : Option String
  trangThaiDangKy : Option String
  hieuLuc : Option Bool
  phienBan : Option String
deriving Repr, DecidableEq

/-- The identity-document (`GiayToTuyThan`) fields carried by a Person row. -/
structure GiayToInfo where
  giayToTuyThanID : Option String
  tenLoaiGiayToTuyThan : Option String
  ngayCap : Option String
  noiCap : Option String
  maDinhDanhCaNhan : Option String
  hieuLuc : Option Bool
  soGiayTo : Option String
  loaiGiayToTuyThan : Option String
deriving Repr, DecidableEq

def emptyGiayTo : GiayToInfo :=
  { giayToTuyThanID := none, tenLoaiGiayToTuyThan := none, ngayCap := none,
    noiCap := none, maDinhDanhCaNhan := none, hieuLuc := none,
    soGiayTo := none, loaiGiayToTuyThan := none }

/-- A `canhan` (Person) row as built by `extract_canhan_data`. -/
structure CanHanRow where
  caNhanID : String
  hoTen : Option String
  namSinh : Option String
  diaChiID : Option String
  gioiTinh : Option String
  phienBan : Option String
  giayTo : GiayToInfo
deriving Repr, DecidableEq

/-- A `giaychungnhan` (Certificate) row as built by `extract_giaychungnhan_data`. -/
structure GcnRow where
  giayChungNhanID : String
  soVaoSo : Option String
  soPhatHanh : Option String
  MaGiayChungNhan : Option String
  ngayCap : Option String
  maVach : Option String
  nguoiKy : Option String
  soVaoSoCu : Option String
deriving Repr, DecidableEq

/-- A `hoso` (DocumentComponent) row as built by `extract_hoso_data`. -/
structure HoSoRow where
  thanhPhanHoSoID : String
  hoSoDangKySoID : Option String
  giayChungNhanID : Option String
  loaiGiayTo : Option String
  tepTin : Option String
  url : Option String
  maHoSoLuuTru : Option String
  maDVHCXa : Option String
deriving Repr, DecidableEq

/-! ### `XMLParser.extract_thuadat_data` -/

/-- The owner-pair map (`vo_chong_map`): one entry per `VoChong` child with a
truthy `voChongID`.  Python-dict semantics: a duplicate key overwrites, so
lookups below take the last binding. -/
def buildVoChongMap (root : XElem) : List (String × VoChongInfo) :=
  match root.findDesc "VoChongCollection" with
  | none => []
  | some coll =>
    if coll.truthy then
      (coll.childrenTagged "VoChong").filterMap (fun vc =>
        match getText (some vc) "voChongID" none with
        | none => none
        | some vid =>
          if vid = "" then none
          else some (vid, { voChongID := some vid,
                            voID := getText (some vc) "voID" none,
                            chongID := getText (some vc) "chongID" none }))
    else []

/-- Key membership in the owner-pair map (`doi_tuong_id in vo_chong_map`). -/
def mapMem (m : List (String × VoChongInfo)) (k : String) : Bool :=
  m.any (fun p => p.1 == k)

/-- Lookup in the owner-pair map; the last binding wins (dict overwrite). -/
def mapLookup (m : List (String × VoChongInfo)) (k : String) : Option VoChongInfo :=
  (m.reverse.find? (fun p => p.1 == k)).map Prod.snd

/-- The condition under which a `QuyenSuDungDat` node resolves a parcel's
owners: its `thuaDatID` text equals the parcel id and its `doiTuongID` is a
truthy key of the owner-pair map. -/
def qsdQualifies (m : List (String × VoChongInfo)) (tid : String) (q : XElem) : Bool :=
  (getText (some q) "thuaDatID" none == some tid) &&
  (match getText (some q) "doiTuongID" none with
   | some d => (d ≠ "") && mapMem m d
   | none => false)

/-- The inner loop over all `QuyenSuDungDat` nodes: first qualifying node in
document order wins; no qualifying node leaves the owner fields null. -/
def resolveOwner (m : List (String × VoChongInfo)) (qsds : List XElem) (tid : String) :
    VoChongInfo :=
  match qsds.find? (fun q => qsdQualifies m tid q) with
  | some q =>
    match getText (some q) "doiTuongID" none with
    | some d => (mapLookup m d).getD emptyVoChong
    | none => emptyVoChong
  | none => emptyVoChong

/-- One iteration of the `DC_ThuaDat` loop: skip the node when the id is
missing or empty, otherwise build the row. -/
def thuaDatRowOf (m : List (String × VoChongInfo)) (qsds : List XElem) (td : XElem) :
    Option ThuaDatRow :=
  match getText (some td) "thuaDatID" none with
  | none => none
  | some tid =>
    if tid = "" then none
    else
      let info := resolveOwner m qsds tid
      some { thuaDatID := tid,
             maDVHCXa := getText (some td) "maDVHCXa" none,
             soHieuToBanDo := getText (some td) "soHieuToBanDo" none,
             soThuTuThua := getText (some td) "soThuTuThua" none,
             dienTich := getText (some td) "dienTich" none,
             dienTichPhapLy := getText (some td) "dienTichPhapLy" none,
             diaChiID := getText (some td) "diaChiID" none,
             voChongID := info.voChongID,
             voID := info.voID,
             chongID := info.chongID,
             phanLoaiDuLieu := getText (some td) "phanLoaiDuLieu" none,
             trangThaiDangKy := getText (some td) "trangThaiDangKy" none,
             hieuLuc := parse_boolean (getText (some td) "hieuLuc" (some "true")),
             phienBan := getText (some td) "phienBan" none }

/-- `XMLParser.extract_thuadat_data`. -/
def extract_thuadat_data (root : XElem) : List ThuaDatRow :=
  let m := buildVoChongMap root
  match root.findDesc "ThuaDatCollection" with
  | none => []
  | some coll =>
    if coll.truthy then
      (coll.childrenTagged "DC_ThuaDat").filterMap
        (thuaDatRowOf m (root.findallDesc "QuyenSuDungDat"))
    else []

/-! ### `XMLParser.extract_canhan_data` -/

/-- The identity-document fields read from one `GiayToTuyThan` node. -/
def giayToInfoOf (g : XElem) : GiayToInfo :=
  { giayToTuyThanID := getText (some g) "giayToTuyThanID" none,
    tenLoaiGiayToTuyThan := getText (some g) "tenLoaiGiayToTuyThan" none,
    ngayCap := parse_date (getText (some g) "ngayCap" (some "")),
    noiCap := getText (some g) "noiCap" none,
    maDinhDanhCaNhan := getText (some g) "maDinhDanhCaNhan" none,
    hieuLuc := parse_boolean (getText (some g) "hieuLuc" (some "")),
    soGiayTo := getText (some g) "soGiayTo" none,
    loaiGiayToTuyThan := getText (some g) "loaiGiayToTuyThan" none }

/-- One iteration of the `CaNhan` loop: skip when the id is missing or
empty; otherwise read direct fields plus the first `GiayToTuyThan` of the
sub-collection (if any). -/
def canHanRowOf (ca : XElem) : Option CanHanRow :=
  match getText (some ca) "caNhanID" none with
  | none => none
  | some cid =>
    if cid = "" then none
    else
      let info :=
        match ca.findChild "GiayToTuyThanCollection" with
        | none => emptyGiayTo
        | some coll =>
          if coll.truthy then
            match coll.findChild "GiayToTuyThan" with
            | some g => giayToInfoOf g
            | none => emptyGiayTo
          else emptyGiayTo
      some { caNhanID := cid,
             hoTen := getText (some ca) "hoTen" none,
             namSinh := getText (some ca) "namSinh" none,
             diaChiID := getText (some ca) "diaChiID" none,
             gioiTinh := getText (some ca) "gioiTinh" none,
             phienBan := getText (some ca) "phienBan" none,
             giayTo := info }

/-- `XMLParser.extract_canhan_data`. -/
def extract_canhan_data (root : XElem) : List CanHanRow :=
  match root.findDesc "CaNhanCollection" with
  | none => []
  | some coll =>
    if coll.truthy then (coll.childrenTagged "CaNhan").filterMap canHanRowOf
    else []

/-! ### `XMLParser.extract_giaychungnhan_data` -/

/-- One iteration of the `GiayChungNhan` loop. -/
def gcnRowOf (g : XElem) : Option GcnRow :=
  match getText (some g) "giayChungNhanID" none with
  | none => none
  | some gid =>
    if gid = "" then none
    else
      some { giayChungNhanID := gid,
             soVaoSo := getText (some g) "soVaoSo" none,
             soPhatHanh := getText (some g) "soPhatHanh" none,
             MaGiayChungNhan := getText (some g) "MaGiayChungNhan" none,
             ngayCap := parse_timestamp (getText (some g) "ngayCap" (some "")),
             maVach := getText (some g) "maVach" none,
             nguoiKy := getText (some g) "nguoiKy" none,
             soVaoSoCu := getText (some g) "soVaoSoCu" none }

/-- `XMLParser.extract_giaychungnhan_data`. -/
def extract_giaychungnhan_data (root : XElem) : List GcnRow :=
  match root.findDesc "GiayChungNhanCollection" with
  | none => []
  | some coll =>
    if coll.truthy then (coll.childrenTagged "GiayChungNhan").filterMap gcnRowOf
    else []

/-! ### `XMLParser.extract_hoso_data` -/

/-- One component row built from a `ThanhPhanHoSoDangKyDatDai` node, given
the four fields captured from its parent case node. -/
def componentRowOf (hosoID gcnID maHoSo maDVHC : Option String) (tp : XElem) :
    Option HoSoRow :=
  match getText (some tp) "thanhPhanHoSoID" none with
  | none => none
  | some tpid =>
    if tpid = "" then none
    else
      some { thanhPhanHoSoID := tpid,
             hoSoDangKySoID := hosoID,
             giayChungNhanID := gcnID,
             loaiGiayTo := getText (some tp) "loaiGiayTo" none,
             tepTin := getText (some tp) "tepTin" none,
             url := getText (some tp) "url" none,
             maHoSoLuuTru := maHoSo,
             maDVHCXa := maDVHC }

/-- The rows emitted for one `HoSoDangKyDatDai` case node: its own four
fields are captured once (missing ones stay null) and one row is emitted per
component child carrying a truthy `thanhPhanHoSoID`. -/
def hosoRowsOfCase (hoso : XElem) : List HoSoRow :=
  let hosoID := getText (some hoso) "hoSoDangKySoID" none
  let gcnID := getText (some hoso) "giayChungNhanID" none
  let maHoSo := getText (some hoso) "maHoSoLuuTru" none
  let maDVHC := getText (some hoso) "maDVHCXa" none
  match hoso.findChild "ThanhPhanHoSoDangKyDatDaiCollection" with
  | none => []
  | some coll =>
    if coll.truthy then
      (coll.childrenTagged "ThanhPhanHoSoDangKyDatDai").filterMap
        (componentRowOf hosoID gcnID maHoSo maDVHC)
    else []

/-- `XMLParser.extract_hoso_data`. -/
def extract_hoso_data (root : XElem) : List HoSoRow :=
  match root.findDesc "HoSoDangKyDatDaiCollection" with
  | none => []
  | some coll =>
    if coll.truthy then
      ((coll.childrenTagged "HoSoDangKyDatDai").map hosoRowsOfCase).flatten
    else []

/-! ### The relational store and `DatabaseInserter`

The store is modelled per table as a list of rows; a row insert with
`ON CONFLICT (pk) DO NOTHING` adds the row only when no present row carries
the same key.  A transaction holds the committed snapshot (what `ROLLBACK`
restores) and the pending snapshot (what the cursor sees and `COMMIT`
publishes).  A database error raised by a statement is modelled by a
boolean oracle parameter on the corresponding operation. -/

structure DB where
  canhan : List CanHanRow
  giaychungnhan : List GcnRow
  thuadat : List ThuaDatRow
  hoso : List HoSoRow
deriving Repr, DecidableEq

structure Tx where
  committed : DB
  pending : DB
deriving Repr, DecidableEq

/-- `conn.rollback()`. -/
def rollbackTx (tx : Tx) : Tx := { tx with pending := tx.committed }

/-- `conn.commit()` followed by reading the durable state. -/
def commitTx (tx : Tx) : DB := tx.pending

/-- One row of an `INSERT ... ON CONFLICT (key) DO NOTHING` batch: skip the
row when the key is already present, insert it otherwise;
the accumulator carries (store, inserted, skipped). -/
def insertStep {α : Type} (key : α → String) (acc : List α × Nat × Nat) (r : α) :
    List α × Nat × Nat :=
  if acc.1.any (fun x => key x == key r) then (acc.1, acc.2.1, acc.2.2 + 1)
  else (acc.1 ++ [r], acc.2.1 + 1, acc.2.2)

/-- A whole batched insert with conflict skipping, returning the updated
table and the (inserted, skipped) counts. -/
def insertBatch {α : Type} (key : α → String) (store : List α) (batch : List α) :
    List α × Nat × Nat :=
  batch.foldl (insertStep key) (store, 0, 0)

/-- `DatabaseInserter.insert_canhan`; `err` models a raised batch error. -/
def insert_canhan (err : Bool) (tx : Tx) (batch : List CanHanRow) : Tx × Nat × Nat :=
  if batch.isEmpty then (tx, 0, 0)
  else if err then (rollbackTx tx, 0, batch.length)
  else
    let out := insertBatch (fun x => x.caNhanID) tx.pending.canhan batch
    ({ tx with pending := { tx.pending with canhan := out.1 } }, out.2.1, out.2.2)

/-- `DatabaseInserter.insert_giaychungnhan`. -/
def insert_giaychungnhan (err : Bool) (tx : Tx) (batch : List GcnRow) : Tx × Nat × Nat :=
  if batch.isEmpty then (tx, 0, 0)
  else if err then (rollbackTx tx, 0, batch.length)
  else
    let out := insertBatch (fun x => x.giayChungNhanID) tx.pending.giaychungnhan batch
    ({ tx with pending := { tx.pending with giaychungnhan := out.1 } }, out.2.1, out.2.2)

/-- `DatabaseInserter.insert_thuadat`. -/
def insert_thuadat (err : Bool) (tx : Tx) (batch : List ThuaDatRow) : Tx × Nat × Nat :=
  if batch.isEmpty then (tx, 0, 0)
  else if err then (rollbackTx tx, 0, batch.length)
  else
    let out := insertBatch (fun x => x.thuaDatID) tx.pending.thuadat batch
    ({ tx with pending := { tx.pending with thuadat := out.1 } }, out.2.1, out.2.2)

/-- The distinct truthy certificate references of a component batch
(`unique_gcn_ids`; list membership models set membership). -/
def uniqueGcnIds (batch : List HoSoRow) : List String :=
  batch.filterMap (fun r =>
    match r.giayChungNhanID with
    | some g => if g = "" then none else some g
    | none => none)

/-- The set of referenced certificate ids accepted as valid
(`valid_gcn_ids`): empty when there is nothing to check, everything when the
existence query failed (`checkErr`), otherwise the referenced ids found in
the certificate table visible to the transaction. -/
def hosoValidIds (checkErr : Bool) (gcnStore : List GcnRow) (batch : List HoSoRow) :
    List String :=
  let uniq := uniqueGcnIds batch
  if uniq.isEmpty then []
  else if checkErr then uniq
  else uniq.filter (fun g => gcnStore.any (fun c => c.giayChungNhanID == g))

/-- The defensive rewrite: a truthy certificate reference that is not in
the valid set becomes null (`data['giayChungNhanID'] = None`). -/
def nullifyGcn (valid : List String) (r : HoSoRow) : HoSoRow :=
  match r.giayChungNhanID with
  | some g =>
    if g ≠ "" && !(valid.contains g) then { r with giayChungNhanID := none } else r
  | none => r

/-- `DatabaseInserter.insert_hoso`: validate the certificate references,
null the dangling ones, then batch-insert with conflict skipping.
`checkErr` models a failing existence query, `insErr` a failing insert. -/
def insert_hoso (checkErr insErr : Bool) (tx : Tx) (batch : List HoSoRow) :
    Tx × Nat × Nat :=
  if batch.isEmpty then (tx, 0, 0)
  else
    let valid := hosoValidIds checkErr tx.pending.giaychungnhan batch
    let batch2 := batch.map (nullifyGcn valid)
    if insErr then (rollbackTx tx, 0, batch.length)
    else
      let out := insertBatch (fun x => x.thanhPhanHoSoID) tx.pending.hoso batch2
      ({ tx with pending := { tx.pending with hoso := out.1 } }, out.2.1, out.2.2)

/-! ### The per-document load (`XMLToDBExtractor.process_single_file_worker`) -/

/-- The four record lists extracted from one document. -/
structure RecordLists where
  canhan : List CanHanRow
  giaychungnhan : List GcnRow
  thuadat : List ThuaDatRow
  hoso : List HoSoRow
deriving Repr, DecidableEq

/-- The per-kind (inserted, skipped) counts reported for one document. -/
structure LoadCounts where
  canhanIns : Nat
  canhanSkip : Nat
  gcnIns : Nat
  gcnSkip : Nat
  thuadatIns : Nat
  thuadatSkip : Nat
  hosoIns : Nat
  hosoSkip : Nat
deriving Repr, DecidableEq

/-- The error-free load path of `process_single_file_worker`: open a
transaction on the store, insert the four kinds in dependency order
(persons, certificates, parcels, components), commit, and report the
counts. -/
def processLists (db : DB) (L : RecordLists) : DB × LoadCounts :=
  let tx0 : Tx := { committed := db, pending := db }
  let o1 := insert_canhan false tx0 L.canhan
  let o2 := insert_giaychungnhan false o1.1 L.giaychungnhan
  let o3 := insert_thuadat false o2.1 L.thuadat
  let o4 := insert_hoso false false o3.1 L.hoso
  (commitTx o4.1,
   { canhanIns := o1.2.1, canhanSkip := o1.2.2,
     gcnIns := o2.2.1, gcnSkip := o2.2.2,
     thuadatIns := o3.2.1, thuadatSkip := o3.2.2,
     hosoIns := o4.2.1, hosoSkip := o4.2.2 })

/-! ### Generic lemmas about the conflict-skipping batch insert -/


section InsertBatchLemmas

variable {α : Type} (key : α → String)

lemma foldl_insertStep_skip (batch : List α) :
    ∀ (store : List α) (i s : Nat),
      (∀ r ∈ batch, ∃ x ∈ store, key x = key r) →
      batch.foldl (insertStep key) (store, i, s) = (store, i, s + batch.length) := by
  induction batch with
  | nil => intro store i s _; simp
  | cons b bs ih =>
    intro store i s h
    have hb : ∃ x ∈ store, key x = key b := h b (by simp)
    have hany : store.any (fun x => key x == key b) = true := by
      simpa [List.any_eq_true, beq_iff_eq] using hb
    simp only [List.foldl_cons, insertStep, hany, if_true]
    rw [ih store i (s + 1) (fun r hr => h r (by simp [hr]))]
    simp only [List.length_cons, Prod.mk.injEq]
    refine ⟨trivial, trivial, ?_⟩
    omega

lemma foldl_insertStep_mono (batch : List α) :
    ∀ (store : List α) (i s : Nat) (x : α), x ∈ store →
      x ∈ (batch.foldl (insertStep key) (store, i, s)).1 := by
  induction batch with
  | nil => intro store i s x hx; simpa using hx
  | cons b bs ih =>
    intro store i s x hx
    simp only [List.foldl_cons, insertStep]
    by_cases hany : store.any (fun y => key y == key b) = true
    · simp only [hany, if_true]
      exact ih store i (s + 1) x hx
    · simp only [hany, if_false]
      exact ih (store ++ [b]) (i + 1) s x (List.mem_append_left _ hx)

lemma foldl_insertStep_present (batch : List α) :
    ∀ (store : List α) (i s : Nat) (r : α), r ∈ batch →
      ∃ x ∈ (batch.foldl (insertStep key) (store, i, s)).1, key x = key r := by
  induction batch with
  | nil => intro _ _ _ _ h; simp at h
  | cons b bs ih =>
    intro store i s r hr
    simp only [List.foldl_cons, insertStep]
    by_cases hany : store.any (fun y => key y == key b) = true
    · simp only [hany, if_true]
      rcases List.mem_cons.mp hr with rfl | hr'
      · obtain ⟨x, hx, hk⟩ : ∃ x ∈ store, key x = key r := by
          simpa [List.any_eq_true, beq_iff_eq] using hany
        exact ⟨x, foldl_insertStep_mono key bs store i (s + 1) x hx, hk⟩
      · exact ih store i (s + 1) r hr'
    · simp only [hany, if_false]
      rcases List.mem_cons.mp hr with rfl | hr'
      · exact ⟨r, foldl_insertStep_mono key bs (store ++ [r]) (i + 1) s r (by simp), rfl⟩
      · exact ih (store ++ [b]) (i + 1) s r hr'

lemma foldl_insertStep_counts (batch : List α) :
    ∀ (store : List α) (i s : Nat),
      (batch.foldl (insertStep key) (store, i, s)).2.1 +
        (batch.foldl (insertStep key) (store, i, s)).2.2 = i + s + batch.length := by
  induction batch with
  | nil => intro store i s; simp
  | cons b bs ih =>
    intro store i s
    simp only [List.foldl_cons, insertStep]
    by_cases hany : store.any (fun y => key y == key b) = true
    · simp only [hany, if_true, List.length_cons]
      rw [ih]; omega
    · simp only [List.length_cons]
      simp only [Bool.not_eq_true] at hany
      simp only [hany, Bool.false_eq_true, if_false]
      rw [ih]; omega

lemma foldl_insertStep_mem (batch : List α) :
    ∀ (store : List α) (i s : Nat) (r : α), r ∈ batch →
      (∀ x ∈ store, key x ≠ key r) →
      (∀ x ∈ batch, key x = key r → x = r) →
      r ∈ (batch.foldl (insertStep key) (store, i, s)).1 := by
  induction batch with
  | nil => intro _ _ _ _ h; simp at h
  | cons b bs ih =>
    intro store i s r hr hstore huniq
    simp only [List.foldl_cons, insertStep]
    by_cases hkey : key b = key r
    · have hb : b = r := huniq b (by simp) hkey
      subst hb
      have hany : store.any (fun y => key y == key b) = false := by
        simp only [List.any_eq_false, beq_iff_eq]
        intro x hx
        exact hstore x hx
      simp only [hany, Bool.false_eq_true, if_false]
      exact foldl_insertStep_mono key bs (store ++ [b]) (i + 1) s b (by simp)
    · have hr' : r ∈ bs := by
        rcases List.mem_cons.mp hr with rfl | hr'
        · exact absurd rfl hkey
        · exact hr'
      by_cases hany : store.any (fun y => key y == key b) = true
      · simp only [hany, if_true]
        exact ih store i (s + 1) r hr' hstore
          (fun x hx hk => huniq x (List.mem_cons_of_mem _ hx) hk)
      · simp only [hany, if_false]
        apply ih (store ++ [b]) (i + 1) s r hr'
        · intro x hx
          rcases List.mem_append.mp hx with hx' | hx'
          · exact hstore x hx'
          · simp only [List.mem_singleton] at hx'
            subst hx'
            exact hkey
        · exact fun x hx hk => huniq x (List.mem_cons_of_mem _ hx) hk

lemma insertBatch_skip_all (store batch : List α)
    (h : ∀ r ∈ batch, ∃ x ∈ store, key x = key r) :
    insertBatch key store batch = (store, 0, batch.length) := by
  unfold insertBatch
  simpa using foldl_insertStep_skip key batch store 0 0 h

lemma insertBatch_present (store batch : List α) (r : α) (hr : r ∈ batch) :
    ∃ x ∈ (insertBatch key store batch).1, key x = key r :=
  foldl_insertStep_present key batch store 0 0 r hr

lemma insertBatch_counts (store batch : List α) :
    (insertBatch key store batch).2.1 + (insertBatch key store batch).2.2 =
      batch.length := by
  unfold insertBatch
  simpa using foldl_insertStep_counts key batch store 0 0

lemma insertBatch_mem (store batch : List α) (r : α) (hr : r ∈ batch)
    (hstore : ∀ x ∈ store, key x ≠ key r)
    (huniq : ∀ x ∈ batch, key x = key r → x = r) :
    r ∈ (insertBatch key store batch).1 :=
  foldl_insertStep_mem key batch store 0 0 r hr hstore huniq

end InsertBatchLemmas




/-! ### Characterizations of the four insert methods on the error-free path -/

lemma insert_canhan_spec (tx : Tx) (batch : List CanHanRow) :
    insert_canhan false tx batch =
      (let out := insertBatch (fun x => x.caNhanID) tx.pending.canhan batch
       ({ tx with pending := { tx.pending with canhan := out.1 } }, out.2.1, out.2.2)) := by
  unfold insert_canhan
  by_cases hb : batch.isEmpty
  · have h0 : batch = [] := List.isEmpty_iff.mp hb
    subst h0
    rfl
  · simp only [Bool.not_eq_true] at hb
    simp [hb]

lemma insert_giaychungnhan_spec (tx : Tx) (batch : List GcnRow) :
    insert_giaychungnhan false tx batch =
      (let out := insertBatch (fun x => x.giayChungNhanID) tx.pending.giaychungnhan batch
       ({ tx with pending := { tx.pending with giaychungnhan := out.1 } },
        out.2.1, out.2.2)) := by
  unfold insert_giaychungnhan
  by_cases hb : batch.isEmpty
  · have h0 : batch = [] := List.isEmpty_iff.mp hb
    subst h0
    rfl
  · simp only [Bool.not_eq_true] at hb
    simp [hb]

lemma insert_thuadat_spec (tx : Tx) (batch : List ThuaDatRow) :
    insert_thuadat false tx batch =
      (let out := insertBatch (fun x => x.thuaDatID) tx.pending.thuadat batch
       ({ tx with pending := { tx.pending with thuadat := out.1 } }, out.2.1, out.2.2)) := by
  unfold insert_thuadat
  by_cases hb : batch.isEmpty
  · have h0 : batch = [] := List.isEmpty_iff.mp hb
    subst h0
    rfl
  · simp only [Bool.not_eq_true] at hb
    simp [hb]

lemma insert_hoso_spec (checkErr : Bool) (tx : Tx) (batch : List HoSoRow) :
    insert_hoso checkErr false tx batch =
      (let batch2 :=
         batch.map (nullifyGcn (hosoValidIds checkErr tx.pending.giaychungnhan batch))
       let out := insertBatch (fun x => x.thanhPhanHoSoID) tx.pending.hoso batch2
       ({ tx with pending := { tx.pending with hoso := out.1 } }, out.2.1, out.2.2)) := by
  unfold insert_hoso
  by_cases hb : batch.isEmpty
  · have h0 : batch = [] := List.isEmpty_iff.mp hb
    subst h0
    rfl
  · simp only [Bool.not_eq_true] at hb
    simp [hb]

lemma nullifyGcn_key (valid : List String) (r : HoSoRow) :
    (nullifyGcn valid r).thanhPhanHoSoID = r.thanhPhanHoSoID := by
  unfold nullifyGcn
  rcases h : r.giayChungNhanID with _ | g
  · simp only [h]
  · simp only [h]
    split <;> rfl

/-- C2: loading the same document's record lists a second time into a store
already containing the first pass's rows inserts nothing and leaves the
store unchanged: each of the four kinds reports 0 inserted and a skipped
count equal to the batch size, and no existing row is updated. -/
theorem loader_second_pass_idempotent (db : DB) (L : RecordLists) :
    processLists (processLists db L).1 L =
      ((processLists db L).1,
       { canhanIns := 0, canhanSkip := L.canhan.length,
         gcnIns := 0, gcnSkip := L.giaychungnhan.length,
         thuadatIns := 0, thuadatSkip := L.thuadat.length,
         hosoIns := 0, hosoSkip := L.hoso.length }) := by
  have hdb : (processLists db L).1 =
      { canhan := (insertBatch (fun x => x.caNhanID) db.canhan L.canhan).1,
        giaychungnhan :=
          (insertBatch (fun x => x.giayChungNhanID) db.giaychungnhan L.giaychungnhan).1,
        thuadat := (insertBatch (fun x => x.thuaDatID) db.thuadat L.thuadat).1,
        hoso :=
          (insertBatch (fun x => x.thanhPhanHoSoID) db.hoso
            (L.hoso.map (nullifyGcn
              (hosoValidIds false
                (insertBatch (fun x => x.giayChungNhanID) db.giaychungnhan
                  L.giaychungnhan).1
                L.hoso)))).1 } := by
    simp only [processLists, insert_canhan_spec, insert_giaychungnhan_spec,
      insert_thuadat_spec, insert_hoso_spec, commitTx]
  -- all four key sets are present in the first-pass store
  have hcn : ∀ r ∈ L.canhan, ∃ x ∈ (processLists db L).1.canhan,
      x.caNhanID = r.caNhanID := by
    rw [hdb]
    exact fun r hr =>
      insertBatch_present (fun x : CanHanRow => x.caNhanID) db.canhan L.canhan r hr
  have hgcn : ∀ r ∈ L.giaychungnhan, ∃ x ∈ (processLists db L).1.giaychungnhan,
      x.giayChungNhanID = r.giayChungNhanID := by
    rw [hdb]
    exact fun r hr =>
      insertBatch_present (fun x : GcnRow => x.giayChungNhanID) db.giaychungnhan
        L.giaychungnhan r hr
  have htd : ∀ r ∈ L.thuadat, ∃ x ∈ (processLists db L).1.thuadat,
      x.thuaDatID = r.thuaDatID := by
    rw [hdb]
    exact fun r hr =>
      insertBatch_present (fun x : ThuaDatRow => x.thuaDatID) db.thuadat L.thuadat r hr
  have hhs : ∀ (v : List String) (r : HoSoRow), r ∈ L.hoso →
      ∃ x ∈ (processLists db L).1.hoso,
        x.thanhPhanHoSoID = (nullifyGcn v r).thanhPhanHoSoID := by
    intro v r hr
    rw [hdb, nullifyGcn_key]
    have hr2 : nullifyGcn
        (hosoValidIds false
          (insertBatch (fun x => x.giayChungNhanID) db.giaychungnhan L.giaychungnhan).1
          L.hoso) r ∈
        L.hoso.map (nullifyGcn
          (hosoValidIds false
            (insertBatch (fun x => x.giayChungNhanID) db.giaychungnhan L.giaychungnhan).1
            L.hoso)) := List.mem_map_of_mem _ hr
    obtain ⟨x, hx, hk⟩ := insertBatch_present (fun x : HoSoRow => x.thanhPhanHoSoID)
      db.hoso _ _ hr2
    exact ⟨x, hx, by rw [hk, nullifyGcn_key]⟩
  -- second pass: every batch is fully skipped
  have e1 : insertBatch (fun x : CanHanRow => x.caNhanID) (processLists db L).1.canhan
      L.canhan = ((processLists db L).1.canhan, 0, L.canhan.length) :=
    insertBatch_skip_all _ _ _ hcn
  have e2 : insertBatch (fun x : GcnRow => x.giayChungNhanID)
      (processLists db L).1.giaychungnhan L.giaychungnhan =
      ((processLists db L).1.giaychungnhan, 0, L.giaychungnhan.length) :=
    insertBatch_skip_all _ _ _ hgcn
  have e3 : insertBatch (fun x : ThuaDatRow => x.thuaDatID)
      (processLists db L).1.thuadat L.thuadat =
      ((processLists db L).1.thuadat, 0, L.thuadat.length) :=
    insertBatch_skip_all _ _ _ htd
  have e4 : ∀ v : List String,
      insertBatch (fun x : HoSoRow => x.thanhPhanHoSoID) (processLists db L).1.hoso
        (L.hoso.map (nullifyGcn v)) =
      ((processLists db L).1.hoso, 0, L.hoso.length) := by
    intro v
    have := insertBatch_skip_all (fun x : HoSoRow => x.thanhPhanHoSoID)
      (processLists db L).1.hoso (L.hoso.map (nullifyGcn v))
      (by
        intro r' hr'
        obtain ⟨r, hr, rfl⟩ := List.mem_map.mp hr'
        exact hhs v r hr)
    simpa using this
  conv_lhs =>
    rw [processLists]
  simp only [insert_canhan_spec, insert_giaychungnhan_spec, insert_thuadat_spec,
    insert_hoso_spec, commitTx]
  simp only [e1, e2, e3, e4]




/-! ### C1: parcel owner-pair resolution -/

lemma mapMem_lookup (m : List (String × VoChongInfo)) (k : String)
    (h : mapMem m k = true) : ∃ info, mapLookup m k = some info := by
  unfold mapMem at h
  obtain ⟨p, hp, hpk⟩ := List.any_eq_true.mp h
  unfold mapLookup
  have hex : ∃ x ∈ m.reverse, (fun p : String × VoChongInfo => p.1 == k) x = true :=
    ⟨p, List.mem_reverse.mpr hp, hpk⟩
  obtain ⟨pr, hfind⟩ := Option.isSome_iff_exists.mp (List.find?_isSome.mpr hex)
  exact ⟨pr.2, by rw [hfind]; rfl⟩

lemma thuaDatRowOf_owner (m : List (String × VoChongInfo)) (qsds : List XElem)
    (td : XElem) (row : ThuaDatRow) (h : thuaDatRowOf m qsds td = some row) :
    row.voChongID = (resolveOwner m qsds row.thuaDatID).voChongID ∧
    row.voID = (resolveOwner m qsds row.thuaDatID).voID ∧
    row.chongID = (resolveOwner m qsds row.thuaDatID).chongID := by
  unfold thuaDatRowOf at h
  rcases hg : getText (some td) "thuaDatID" none with _ | tid
  · rw [hg] at h; exact absurd h (by simp)
  · rw [hg] at h
    dsimp only at h
    by_cases h0 : tid = ""
    · rw [if_pos h0] at h; exact absurd h (by simp)
    · rw [if_neg h0] at h
      have hrec := Option.some.inj h
      rw [← hrec]
      exact ⟨rfl, rfl, rfl⟩

/-- C1: a Parcel row's three owner fields are those of the owner-pair found
through the first usage-right node (in document order, searched through the
whole document) whose parcel reference equals the row's id and whose
subject reference is a key of the owner-pair map; when no usage-right node
qualifies, all three owner fields are null. -/
theorem thuadat_owner_resolution (root : XElem) (row : ThuaDatRow)
    (hrow : row ∈ extract_thuadat_data root) :
    (((root.findallDesc "QuyenSuDungDat").find?
        (fun q => qsdQualifies (buildVoChongMap root) row.thuaDatID q)) = none →
      row.voChongID = none ∧ row.voID = none ∧ row.chongID = none) ∧
    (∀ q, ((root.findallDesc "QuyenSuDungDat").find?
        (fun q => qsdQualifies (buildVoChongMap root) row.thuaDatID q)) = some q →
      ∃ d info, getText (some q) "doiTuongID" none = some d ∧
        mapLookup (buildVoChongMap root) d = some info ∧
        row.voChongID = info.voChongID ∧ row.voID = info.voID ∧
        row.chongID = info.chongID) := by
  unfold extract_thuadat_data at hrow
  rcases hc : root.findDesc "ThuaDatCollection" with _ | coll
  · rw [hc] at hrow; exact absurd hrow (by simp)
  · rw [hc] at hrow
    dsimp only at hrow
    by_cases ht : coll.truthy = true
    · rw [if_pos ht] at hrow
      obtain ⟨td, _, heq⟩ := List.mem_filterMap.mp hrow
      obtain ⟨h1, h2, h3⟩ := thuaDatRowOf_owner _ _ _ _ heq
      constructor
      · intro hnone
        rw [h1, h2, h3]
        unfold resolveOwner
        rw [hnone]
        exact ⟨rfl, rfl, rfl⟩
      · intro q hq
        have hqual : qsdQualifies (buildVoChongMap root) row.thuaDatID q = true :=
          List.find?_some hq
        unfold qsdQualifies at hqual
        rcases hd : getText (some q) "doiTuongID" none with _ | d
        · rw [hd] at hqual
          simp at hqual
        · rw [hd] at hqual
          have hmem : mapMem (buildVoChongMap root) d = true := by
            have := (Bool.and_eq_true _ _).mp hqual
            exact ((Bool.and_eq_true _ _).mp this.2).2
          obtain ⟨info, hinfo⟩ := mapMem_lookup _ _ hmem
          refine ⟨d, info, rfl, hinfo, ?_, ?_, ?_⟩
          · rw [h1]; unfold resolveOwner
            rw [hq]; simp only [hd, hinfo, Option.getD_some]
          · rw [h2]; unfold resolveOwner
            rw [hq]; simp only [hd, hinfo, Option.getD_some]
          · rw [h3]; unfold resolveOwner
            rw [hq]; simp only [hd, hinfo, Option.getD_some]
    · rw [if_neg ht] at hrow
      exact absurd hrow (by simp)




/-! ### C1 witness document -/

/-- A document with one owner-pair `O1` = (`A`, `B`), one usage-right node
linking subject `O1` to parcel `P1`, and one parcel `P1`. -/
def c1root : XElem := XElem.mk "Root" none [
  XElem.mk "VoChongCollection" none [
    XElem.mk "VoChong" none [
      XElem.mk "voChongID" (some "O1") [],
      XElem.mk "voID" (some "A") [],
      XElem.mk "chongID" (some "B") []]],
  XElem.mk "QuyenSuDungDatCollection" none [
    XElem.mk "QuyenSuDungDat" none [
      XElem.mk "thuaDatID" (some "P1") [],
      XElem.mk "doiTuongID" (some "O1") []]],
  XElem.mk "ThuaDatCollection" none [
    XElem.mk "DC_ThuaDat" none [
      XElem.mk "thuaDatID" (some "P1") []]]]

/-- The row extracted from `c1root`. -/
def c1row : ThuaDatRow :=
  { thuaDatID := "P1", maDVHCXa := none, soHieuToBanDo := none, soThuTuThua := none,
    dienTich := none, dienTichPhapLy := none, diaChiID := none,
    voChongID := some "O1", voID := some "A", chongID := some "B",
    phanLoaiDuLieu := none, trangThaiDangKy := none, hieuLuc := some true,
    phienBan := none }

theorem thuadat_owner_resolution_witness :
    c1row ∈ extract_thuadat_data c1root ∧
    ((((c1root.findallDesc "QuyenSuDungDat").find?
        (fun q => qsdQualifies (buildVoChongMap c1root) c1row.thuaDatID q)) = none →
      c1row.voChongID = none ∧ c1row.voID = none ∧ c1row.chongID = none) ∧
    (∀ q, ((c1root.findallDesc "QuyenSuDungDat").find?
        (fun q => qsdQualifies (buildVoChongMap c1root) c1row.thuaDatID q)) = some q →
      ∃ d info, getText (some q) "doiTuongID" none = some d ∧
        mapLookup (buildVoChongMap c1root) d = some info ∧
        c1row.voChongID = info.voChongID ∧ c1row.voID = info.voID ∧
        c1row.chongID = info.chongID)) :=
  ⟨by decide, thuadat_owner_resolution c1root c1row (by decide)⟩

/-! ### C3: dangling certificate references are nulled, rows still inserted -/

lemma mem_uniqueGcnIds (batch : List HoSoRow) (r : HoSoRow) (g : String)
    (hr : r ∈ batch) (hg : r.giayChungNhanID = some g) (hgne : g ≠ "") :
    g ∈ uniqueGcnIds batch := by
  unfold uniqueGcnIds
  refine List.mem_filterMap.mpr ⟨r, hr, ?_⟩
  rw [hg]
  simp [hgne]

/-- C3: a component whose certificate reference is absent from the
certificate table visible to the transaction is rewritten to a null
reference before the insert, the rewritten row is inserted, and every row
of the batch is accounted for as inserted or skipped (none dropped). -/
theorem hoso_dangling_cert_nulled_and_inserted (tx : Tx) (batch : List HoSoRow)
    (r : HoSoRow) (g : String)
    (hr : r ∈ batch) (hg : r.giayChungNhanID = some g) (hgne : g ≠ "")
    (habs : ∀ c ∈ tx.pending.giaychungnhan, c.giayChungNhanID ≠ g)
    (hfresh : ∀ x ∈ tx.pending.hoso, x.thanhPhanHoSoID ≠ r.thanhPhanHoSoID)
    (huniq : ∀ x ∈ batch, x.thanhPhanHoSoID = r.thanhPhanHoSoID → x = r) :
    nullifyGcn (hosoValidIds false tx.pending.giaychungnhan batch) r =
      { r with giayChungNhanID := none } ∧
    { r with giayChungNhanID := none } ∈
      (insert_hoso false false tx batch).1.pending.hoso ∧
    (insert_hoso false false tx batch).2.1 + (insert_hoso false false tx batch).2.2 =
      batch.length := by
  have hnotvalid :
      (hosoValidIds false tx.pending.giaychungnhan batch).contains g = false := by
    unfold hosoValidIds
    by_cases he : (uniqueGcnIds batch).isEmpty = true
    · simp [he]
    · simp only [Bool.not_eq_true] at he
      simp only [he, Bool.false_eq_true, if_false]
      rw [Bool.eq_false_iff]
      intro hcon
      have hmem := List.mem_filter.mp (List.mem_of_elem_eq_true hcon)
      obtain ⟨c, hc, hck⟩ := List.any_eq_true.mp hmem.2
      exact habs c hc (by simpa using hck)
  have hnull : nullifyGcn (hosoValidIds false tx.pending.giaychungnhan batch) r =
      { r with giayChungNhanID := none } := by
    unfold nullifyGcn
    rw [hg]
    dsimp only
    have hcond : (g ≠ "" &&
        !((hosoValidIds false tx.pending.giaychungnhan batch).contains g)) = true := by
      rw [hnotvalid]
      simp [hgne]
    rw [if_pos hcond]
  refine ⟨hnull, ?_, ?_⟩
  · rw [insert_hoso_spec]
    dsimp only
    apply insertBatch_mem
    · exact List.mem_map.mpr ⟨r, hr, hnull⟩
    · intro x hx
      simpa using hfresh x hx
    · intro x hx hk
      obtain ⟨y, hy, rfl⟩ := List.mem_map.mp hx
      rw [nullifyGcn_key] at hk
      have hyr : y = r := huniq y hy (by simpa using hk)
      rw [hyr, hnull]
  · rw [insert_hoso_spec]
    dsimp only
    have := insertBatch_counts (fun x : HoSoRow => x.thanhPhanHoSoID) tx.pending.hoso
      (batch.map (nullifyGcn (hosoValidIds false tx.pending.giaychungnhan batch)))
    simpa using this

/-! ### C4: a failing insert rolls back the transaction -/

/-- C4: for every non-empty batch of any of the four kinds, a batch error
other than the handled conflict makes the insert method roll back the
enclosing transaction and report 0 inserted, batch-size skipped. -/
theorem insert_error_rolls_back_reports_skipped (tx : Tx) (checkErr : Bool)
    (cn : List CanHanRow) (gcn : List GcnRow) (td : List ThuaDatRow)
    (hs : List HoSoRow)
    (hcn : cn ≠ []) (hgcn : gcn ≠ []) (htd : td ≠ []) (hhs : hs ≠ []) :
    insert_canhan true tx cn = (rollbackTx tx, 0, cn.length) ∧
    insert_giaychungnhan true tx gcn = (rollbackTx tx, 0, gcn.length) ∧
    insert_thuadat true tx td = (rollbackTx tx, 0, td.length) ∧
    insert_hoso checkErr true tx hs = (rollbackTx tx, 0, hs.length) := by
  have hcn2 : cn.isEmpty = false := by
    cases cn
    · exact absurd rfl hcn
    · rfl
  have hgcn2 : gcn.isEmpty = false := by
    cases gcn
    · exact absurd rfl hgcn
    · rfl
  have htd2 : td.isEmpty = false := by
    cases td
    · exact absurd rfl htd
    · rfl
  have hhs2 : hs.isEmpty = false := by
    cases hs
    · exact absurd rfl hhs
    · rfl
  refine ⟨?_, ?_, ?_, ?_⟩
  · unfold insert_canhan
    simp [hcn2]
  · unfold insert_giaychungnhan
    simp [hgcn2]
  · unfold insert_thuadat
    simp [htd2]
  · unfold insert_hoso
    simp [hhs2]

/-! ### C9: a failing existence query keeps every certificate reference -/

lemma map_id_of_mem {α : Type} (f : α → α) (l : List α) (h : ∀ x ∈ l, f x = x) :
    l.map f = l := by
  induction l with
  | nil => rfl
  | cons a as ih =>
    simp only [List.map_cons, h a (by simp), ih (fun x hx => h x (by simp [hx]))]

/-- C9: when the certificate existence query fails, every referenced id is
treated as valid — no reference is nulled — and the method proceeds with
the plain conflict-skipping insert of the unmodified batch. -/
theorem hoso_check_failure_optimistic (tx : Tx) (batch : List HoSoRow) :
    insert_hoso true false tx batch =
      (let out := insertBatch (fun x => x.thanhPhanHoSoID) tx.pending.hoso batch
       ({ tx with pending := { tx.pending with hoso := out.1 } }, out.2.1, out.2.2)) := by
  rw [insert_hoso_spec]
  have hmap : batch.map (nullifyGcn (hosoValidIds true tx.pending.giaychungnhan batch)) =
      batch := by
    apply map_id_of_mem
    intro r hr
    unfold nullifyGcn
    rcases hgid : r.giayChungNhanID with _ | g
    · rfl
    · dsimp only
      by_cases hge : g = ""
      · simp [hge]
      · have hgmem : g ∈ uniqueGcnIds batch := mem_uniqueGcnIds batch r g hr hgid hge
        have hne : (uniqueGcnIds batch).isEmpty = false := by
          cases hu : uniqueGcnIds batch
          · rw [hu] at hgmem
            exact absurd hgmem (by simp)
          · rfl
        have hvalid : hosoValidIds true tx.pending.giaychungnhan batch =
            uniqueGcnIds batch := by
          unfold hosoValidIds
          simp [hne]
        rw [hvalid]
        have hcond : (g ≠ "" && !((uniqueGcnIds batch).contains g)) = false := by
          simp only [List.elem_eq_true_of_mem hgmem, Bool.not_true, Bool.and_false]
        simp only [hcond, Bool.false_eq_true, if_false]
  rw [hmap]




/-! ### C8: the first identity document wins -/

lemma find?_eq_head?_filter {α : Type} (p : α → Bool) (l : List α) :
    l.find? p = (l.filter p).head? := by
  induction l with
  | nil => rfl
  | cons a as ih =>
    by_cases h : p a = true
    · rw [List.find?_cons_of_pos _ h, List.filter_cons_of_pos h]
      rfl
    · have h2 : p a = false := by
        rw [Bool.eq_false_iff]
        exact h
      rw [List.find?_cons_of_neg, List.filter_cons_of_neg, ih]
      · simp [h2]
      · simp [h2]

/-- C8: a person node whose identity-document sub-collection lists two or
more entries extracts with exactly the first entry's fields. -/
theorem canhan_first_identity_document_wins (ca coll D1 D2 : XElem)
    (rest : List XElem) (row : CanHanRow)
    (hcoll : ca.findChild "GiayToTuyThanCollection" = some coll)
    (hlist : coll.childrenTagged "GiayToTuyThan" = D1 :: D2 :: rest)
    (hrow : canHanRowOf ca = some row) :
    row.giayTo = giayToInfoOf D1 := by
  have hne : coll.children ≠ [] := by
    intro h0
    unfold XElem.childrenTagged at hlist
    rw [h0] at hlist
    simp only [List.filter_nil] at hlist
    exact List.noConfusion hlist
  have htruthy : coll.truthy = true := by
    unfold XElem.truthy
    cases hch : coll.children
    · exact absurd hch hne
    · rfl
  have hfind : coll.findChild "GiayToTuyThan" = some D1 := by
    unfold XElem.findChild
    rw [find?_eq_head?_filter]
    show (coll.childrenTagged "GiayToTuyThan").head? = some D1
    rw [hlist]
    rfl
  unfold canHanRowOf at hrow
  rcases hid : getText (some ca) "caNhanID" none with _ | cid
  · rw [hid] at hrow
    exact absurd hrow (by simp)
  · simp only [hid, hcoll, htruthy, hfind, if_true] at hrow
    by_cases h0 : cid = ""
    · rw [if_pos h0] at hrow
      exact absurd hrow (by simp)
    · rw [if_neg h0] at hrow
      have hrec := Option.some.inj hrow
      rw [← hrec]

/-! ### C10: cases lacking their own id still emit their components -/

lemma length_filterMap_eq_length_filter {α β : Type} (f : α → Option β) (l : List α) :
    (l.filterMap f).length = (l.filter (fun a => (f a).isSome)).length := by
  induction l with
  | nil => rfl
  | cons a as ih =>
    rcases h : f a with _ | b
    · simp [List.filterMap_cons, h, List.filter_cons, ih]
    · simp [List.filterMap_cons, h, List.filter_cons, ih]

lemma componentRowOf_isSome (a b c d : Option String) (tp : XElem) :
    (componentRowOf a b c d tp).isSome =
      strTruthy (getText (some tp) "thanhPhanHoSoID" none) := by
  unfold componentRowOf strTruthy
  rcases h : getText (some tp) "thanhPhanHoSoID" none with _ | s
  · rfl
  · dsimp only
    by_cases h0 : s = ""
    · simp [h0]
    · simp [h0]

lemma componentRowOf_parent (a b c d : Option String) (tp : XElem) (row : HoSoRow)
    (h : componentRowOf a b c d tp = some row) : row.hoSoDangKySoID = a := by
  unfold componentRowOf at h
  rcases hid : getText (some tp) "thanhPhanHoSoID" none with _ | s
  · rw [hid] at h
    exact absurd h (by simp)
  · rw [hid] at h
    dsimp only at h
    by_cases h0 : s = ""
    · rw [if_pos h0] at h
      exact absurd h (by simp)
    · rw [if_neg h0] at h
      have hrec := Option.some.inj h
      rw [← hrec]

/-- C10: a case node lacking its own case identifier still emits one
component row per component child with a truthy component identifier, and
every emitted row carries a null parent-case identifier. -/
theorem hoso_missing_case_id_components_kept (hoso tpc : XElem)
    (hid : getText (some hoso) "hoSoDangKySoID" none = none)
    (htpc : hoso.findChild "ThanhPhanHoSoDangKyDatDaiCollection" = some tpc) :
    (hosoRowsOfCase hoso).length =
      ((tpc.childrenTagged "ThanhPhanHoSoDangKyDatDai").filter
        (fun tp => strTruthy (getText (some tp) "thanhPhanHoSoID" none))).length ∧
    ∀ row ∈ hosoRowsOfCase hoso, row.hoSoDangKySoID = none := by
  have hrows : hosoRowsOfCase hoso =
      (if tpc.truthy then
        (tpc.childrenTagged "ThanhPhanHoSoDangKyDatDai").filterMap
          (componentRowOf (getText (some hoso) "hoSoDangKySoID" none)
            (getText (some hoso) "giayChungNhanID" none)
            (getText (some hoso) "maHoSoLuuTru" none)
            (getText (some hoso) "maDVHCXa" none))
      else []) := by
    unfold hosoRowsOfCase
    rw [htpc]
  constructor
  · rw [hrows]
    by_cases ht : tpc.truthy = true
    · rw [if_pos ht]
      rw [length_filterMap_eq_length_filter]
      congr 1
      apply List.filter_congr
      intro tp _
      exact componentRowOf_isSome _ _ _ _ tp
    · rw [if_neg ht]
      have hch : tpc.children = [] := by
        unfold XElem.truthy at ht
        cases hc : tpc.children
        · rfl
        · rw [hc] at ht
          exact absurd rfl ht
      unfold XElem.childrenTagged
      rw [hch]
      rfl
  · intro row hrow
    rw [hrows] at hrow
    by_cases ht : tpc.truthy = true
    · rw [if_pos ht] at hrow
      obtain ⟨tp, _, heq⟩ := List.mem_filterMap.mp hrow
      have hp := componentRowOf_parent _ _ _ _ _ _ heq
      rw [hp, hid]
    · rw [if_neg ht] at hrow
      exact absurd hrow (by simp)




/-! ### C5: boolean parsing and the parcel validity default -/

/-- A parcel whose `DC_ThuaDat` node has no `hieuLuc` child. -/
def c5root : XElem := XElem.mk "Root" none [
  XElem.mk "ThuaDatCollection" none [
    XElem.mk "DC_ThuaDat" none [
      XElem.mk "thuaDatID" (some "P9") []]]]

/-- C5 counterexample: the Parcel validity flag of a parcel whose source
element is absent extracts as `some true`, not null — the extractor passes
the default text value to the boolean parser for that field. -/
theorem parse_boolean_parcel_default_counterexample :
    (extract_thuadat_data c5root).map (fun r => r.hieuLuc) = [some true] := by
  decide

/-- C5 (amended): a missing or empty value parses to null; a non-empty
value parses case-insensitively, `true`/`1`/`yes` to true and anything
else to false; but the Parcel validity flag is read with the default text
value `true`, so a parcel node without a `hieuLuc` child extracts with the
flag `some true`, not null. -/
theorem parse_boolean_amended :
    parse_boolean none = none ∧
    parse_boolean (some "") = none ∧
    (∀ s : String, s ≠ "" →
      (["true", "1", "yes"] : List String).contains (lowerStr (trimStr s)) = true →
      parse_boolean (some s) = some true) ∧
    (∀ s : String, s ≠ "" →
      (["true", "1", "yes"] : List String).contains (lowerStr (trimStr s)) = false →
      parse_boolean (some s) = some false) ∧
    (∀ (m : List (String × VoChongInfo)) (qsds : List XElem) (td : XElem)
       (row : ThuaDatRow), td.findChild "hieuLuc" = none →
       thuaDatRowOf m qsds td = some row → row.hieuLuc = some true) := by
  refine ⟨rfl, rfl, ?_, ?_, ?_⟩
  · intro s hs hc
    unfold parse_boolean
    dsimp only
    rw [if_neg hs, hc]
  · intro s hs hc
    unfold parse_boolean
    dsimp only
    rw [if_neg hs, hc]
  · intro m qsds td row hchild hrow
    have hdef : getText (some td) "hieuLuc" (some "true") = some "true" := by
      unfold getText
      dsimp only
      rw [hchild]
    unfold thuaDatRowOf at hrow
    rcases hg : getText (some td) "thuaDatID" none with _ | tid
    · rw [hg] at hrow
      exact absurd hrow (by simp)
    · rw [hg] at hrow
      dsimp only at hrow
      by_cases h0 : tid = ""
      · rw [if_pos h0] at hrow
        exact absurd hrow (by simp)
      · rw [if_neg h0] at hrow
        have hrec := Option.some.inj hrow
        rw [← hrec]
        show parse_boolean (getText (some td) "hieuLuc" (some "true")) = some true
        rw [hdef]
        rfl

theorem parse_boolean_amended_witness :
    parse_boolean (some " YES ") = some true ∧ parse_boolean (some "no") = some false :=
  ⟨parse_boolean_amended.2.2.1 " YES " (by decide) (by decide),
   parse_boolean_amended.2.2.2.1 "no" (by decide) (by decide)⟩

/-! ### C6: field-text normalization -/

/-- C6 counterexample: an element whose text is whitespace-only yields the
empty string after stripping, not null — the text is truthy, so the
default is not used, and stripping empties it. -/
theorem get_text_whitespace_counterexample :
    getText (some (XElem.mk "p" none [XElem.mk "t" (some " ") []])) "t" none =
      some "" := by
  decide

/-- C6 (amended): the field-text reader either returns the supplied default
(when the element or its text is missing, or the text is the empty string)
or strips the element's non-empty text — which yields the empty string,
not null, when the text was whitespace-only. -/
theorem get_text_amended (e : Option XElem) (tag : String) (dflt : Option String) :
    getText e tag dflt = dflt ∨
    ∃ el c s, e = some el ∧ el.findChild tag = some c ∧ c.text = some s ∧
      s ≠ "" ∧ getText e tag dflt = some (trimStr s) := by
  unfold getText
  rcases e with _ | el
  · exact Or.inl rfl
  · dsimp only
    rcases hc : el.findChild tag with _ | c
    · exact Or.inl rfl
    · dsimp only
      rcases ht : c.text with _ | s
      · exact Or.inl rfl
      · dsimp only
        by_cases h0 : s = ""
        · rw [if_pos h0]
          exact Or.inl rfl
        · rw [if_neg h0]
          exact Or.inr ⟨el, c, s, rfl, hc, ht, h0, rfl⟩

/-! ### C7: date parsing fallback formats -/

/-- C7 counterexample: `"2020-03-15 10:00:00"` matches neither of the two
formats the claim lists for the date-only parser, yet the parser accepts
it — the source tries a third format, `%Y-%m-%d %H:%M:%S`, between the two
listed ones. -/
theorem parse_date_extra_format_counterexample :
    strptimeYmd (trimStr "2020-03-15 10:00:00") = none ∧
    strptimeDmy (trimStr "2020-03-15 10:00:00") = none ∧
    parse_date (some "2020-03-15 10:00:00") = some "2020-03-15" := by
  refine ⟨rfl, rfl, rfl⟩

/-- C7 (amended): the date-only parser tries `%Y-%m-%d`, then
`%Y-%m-%d %H:%M:%S`, then `%d/%m/%Y`, first successful match wins, and a
string matching none of the three yields null; the timestamp parser tries
`%Y-%m-%d %H:%M:%S` then `%Y-%m-%d`; `"15/03/2020"` and `"2020-03-15"`
normalize identically. -/
theorem parse_date_amended :
    (∀ s y m d, strptimeYmd (trimStr s) = some (y, m, d) →
      parse_date (some s) = some (fmtDate y m d)) ∧
    (∀ s y m d h mi sec, strptimeYmd (trimStr s) = none →
      strptimeYmdHms (trimStr s) = some (y, m, d, h, mi, sec) →
      parse_date (some s) = some (fmtDate y m d)) ∧
    (∀ s y m d, strptimeYmd (trimStr s) = none → strptimeYmdHms (trimStr s) = none →
      strptimeDmy (trimStr s) = some (y, m, d) →
      parse_date (some s) = some (fmtDate y m d)) ∧
    (∀ s, strptimeYmd (trimStr s) = none → strptimeYmdHms (trimStr s) = none →
      strptimeDmy (trimStr s) = none → parse_date (some s) = none) ∧
    (∀ s y m d h mi sec, strptimeYmdHms (trimStr s) = some (y, m, d, h, mi, sec) →
      parse_timestamp (some s) = some (fmtDateTime y m d h mi sec)) ∧
    (∀ s y m d, strptimeYmdHms (trimStr s) = none →
      strptimeYmd (trimStr s) = some (y, m, d) →
      parse_timestamp (some s) = some (fmtDateTime y m d 0 0 0)) ∧
    (∀ s, strptimeYmdHms (trimStr s) = none → strptimeYmd (trimStr s) = none →
      parse_timestamp (some s) = none) ∧
    parse_date (some "15/03/2020") = parse_date (some "2020-03-15") := by
  have hymd_empty : strptimeYmd (trimStr "") = none := rfl
  refine ⟨?_, ?_, ?_, ?_, ?_, ?_, ?_, rfl⟩
  · intro s y m d h1
    have hs : s ≠ "" := by
      intro h0
      rw [h0, hymd_empty] at h1
      exact Option.noConfusion h1
    unfold parse_date
    dsimp only
    rw [if_neg hs, h1]
  · intro s y m d h mi sec h1 h2
    have hs : s ≠ "" := by
      intro h0
      rw [h0] at h2
      exact Option.noConfusion h2
    unfold parse_date
    dsimp only
    rw [if_neg hs, h1, h2]
  · intro s y m d h1 h2 h3
    have hs : s ≠ "" := by
      intro h0
      rw [h0] at h3
      exact Option.noConfusion h3
    unfold parse_date
    dsimp only
    rw [if_neg hs, h1, h2, h3]
  · intro s h1 h2 h3
    unfold parse_date
    dsimp only
    by_cases hs : s = ""
    · rw [if_pos hs]
    · rw [if_neg hs, h1, h2, h3]
  · intro s y m d h mi sec h1
    have hs : s ≠ "" := by
      intro h0
      rw [h0] at h1
      exact Option.noConfusion h1
    unfold parse_timestamp
    dsimp only
    rw [if_neg hs, h1]
  · intro s y m d h1 h2
    have hs : s ≠ "" := by
      intro h0
      rw [h0, hymd_empty] at h2
      exact Option.noConfusion h2
    unfold parse_timestamp
    dsimp only
    rw [if_neg hs, h1, h2]
  · intro s h1 h2
    unfold parse_timestamp
    dsimp only
    by_cases hs : s = ""
    · rw [if_pos hs]
    · rw [if_neg hs, h1, h2]

theorem parse_date_amended_witness :
    parse_date (some "15/03/2020") = some "2020-03-15" ∧
    parse_date (some "not-a-date") = none ∧
    parse_timestamp (some "2020-03-15") = some "2020-03-15 00:00:00" :=
  ⟨parse_date_amended.2.2.1 "15/03/2020" 2020 3 15 rfl rfl rfl,
   parse_date_amended.2.2.2.1 "not-a-date" rfl rfl rfl,
   parse_date_amended.2.2.2.2.2.1 "2020-03-15" 2020 3 15 rfl rfl⟩




/-! ### Concrete witnesses for the loader claims -/

def emptyDB : DB := { canhan := [], giaychungnhan := [], thuadat := [], hoso := [] }

def emptyTx : Tx := { committed := emptyDB, pending := emptyDB }

/-- A component row referencing the certificate id `G1`. -/
def c3row : HoSoRow :=
  { thanhPhanHoSoID := "T1", hoSoDangKySoID := some "H1",
    giayChungNhanID := some "G1", loaiGiayTo := none, tepTin := none,
    url := none, maHoSoLuuTru := none, maDVHCXa := none }

theorem hoso_dangling_cert_nulled_and_inserted_witness :
    nullifyGcn (hosoValidIds false emptyTx.pending.giaychungnhan [c3row]) c3row =
      { c3row with giayChungNhanID := none } ∧
    { c3row with giayChungNhanID := none } ∈
      (insert_hoso false false emptyTx [c3row]).1.pending.hoso ∧
    (insert_hoso false false emptyTx [c3row]).2.1 +
      (insert_hoso false false emptyTx [c3row]).2.2 = [c3row].length :=
  hoso_dangling_cert_nulled_and_inserted emptyTx [c3row] c3row "G1"
    (by decide) rfl (by decide) (by decide) (by decide) (by decide)

def cnSample : CanHanRow :=
  { caNhanID := "C1", hoTen := none, namSinh := none, diaChiID := none,
    gioiTinh := none, phienBan := none, giayTo := emptyGiayTo }

def gcnSample : GcnRow :=
  { giayChungNhanID := "G1", soVaoSo := none, soPhatHanh := none,
    MaGiayChungNhan := none, ngayCap := none, maVach := none, nguoiKy := none,
    soVaoSoCu := none }

def tdSample : ThuaDatRow :=
  { thuaDatID := "P1", maDVHCXa := none, soHieuToBanDo := none,
    soThuTuThua := none, dienTich := none, dienTichPhapLy := none,
    diaChiID := none, voChongID := none, voID := none, chongID := none,
    phanLoaiDuLieu := none, trangThaiDangKy := none, hieuLuc := some true,
    phienBan := none }

theorem insert_error_rolls_back_reports_skipped_witness :
    insert_canhan true emptyTx [cnSample] = (rollbackTx emptyTx, 0, 1) ∧
    insert_giaychungnhan true emptyTx [gcnSample] = (rollbackTx emptyTx, 0, 1) ∧
    insert_thuadat true emptyTx [tdSample] = (rollbackTx emptyTx, 0, 1) ∧
    insert_hoso false true emptyTx [c3row] = (rollbackTx emptyTx, 0, 1) :=
  insert_error_rolls_back_reports_skipped emptyTx false [cnSample] [gcnSample]
    [tdSample] [c3row] (by decide) (by decide) (by decide) (by decide)

/-! ### Concrete witnesses for C8 and C10 -/

def c8D1 : XElem := XElem.mk "GiayToTuyThan" none
  [XElem.mk "giayToTuyThanID" (some "ID1") []]

def c8D2 : XElem := XElem.mk "GiayToTuyThan" none
  [XElem.mk "giayToTuyThanID" (some "ID2") []]

def c8coll : XElem := XElem.mk "GiayToTuyThanCollection" none [c8D1, c8D2]

def c8ca : XElem := XElem.mk "CaNhan" none
  [XElem.mk "caNhanID" (some "C1") [], c8coll]

def c8row : CanHanRow :=
  { caNhanID := "C1", hoTen := none, namSinh := none, diaChiID := none,
    gioiTinh := none, phienBan := none,
    giayTo := { giayToTuyThanID := some "ID1", tenLoaiGiayToTuyThan := none,
                ngayCap := none, noiCap := none, maDinhDanhCaNhan := none,
                hieuLuc := none, soGiayTo := none, loaiGiayToTuyThan := none } }

theorem canhan_first_identity_document_wins_witness :
    c8row.giayTo = giayToInfoOf c8D1 :=
  canhan_first_identity_document_wins c8ca c8coll c8D1 c8D2 [] c8row rfl rfl rfl

def c10tp : XElem := XElem.mk "ThanhPhanHoSoDangKyDatDai" none
  [XElem.mk "thanhPhanHoSoID" (some "T7") []]

def c10tpc : XElem := XElem.mk "ThanhPhanHoSoDangKyDatDaiCollection" none [c10tp]

def c10case : XElem := XElem.mk "HoSoDangKyDatDai" none [c10tpc]

theorem hoso_missing_case_id_components_kept_witness :
    (hosoRowsOfCase c10case).length =
      ((c10tpc.childrenTagged "ThanhPhanHoSoDangKyDatDai").filter
        (fun tp => strTruthy (getText (some tp) "thanhPhanHoSoID" none))).length ∧
    ∀ row ∈ hosoRowsOfCase c10case, row.hoSoDangKySoID = none :=
  hoso_missing_case_id_components_kept c10case c10tpc rfl rfl


end ExportData
